import Mathlib

/-!
Verification development for the signing, simulation and submission core of the
mev-arbitrage-bot repository. The Rust sources under src/ are shallowly embedded:
pure computations become Lean functions over Nat and Int (machine integers carry
explicit saturation, truncation or wrap-around where the Rust code has it), external
effects (node RPC, relay HTTP, remote signing devices, secp256k1 primitives) become
oracle parameters, and each function that performs I/O additionally returns the trace
of the calls it issued before returning.
-/

namespace MevBot

/-- secp256k1 group order N, the constant decoded in crypto/der.rs line 22. -/
def secpN : Nat := 0xFFFFFFFFFFFFFFFFFFFFFFFFFFFFFFFEBAAEDCE6AF48A03BBFD25E8CD0364141

/-- N / 2 rounded down, crypto/der.rs line 23 (curve_n.checked_div(2)). -/
def halfN : Nat := secpN / 2

/-- Largest u128 value. -/
def u128Max : Nat := 2 ^ 128 - 1

/-- Largest U256 value. -/
def u256Max : Nat := 2 ^ 256 - 1

/-- i128::MIN as an unbounded integer. -/
def i128Min : Int := -(2 ^ 127)

/-- i128::MAX / 8 with truncating Rust division (the clamp of sim.rs line 37). -/
def i128MaxDiv8 : Int := ((2 ^ 127 - 1) / 8 : Nat)

/-- i128::MIN / 4 with truncating Rust division (sim.rs line 27), exactly -(2^125). -/
def revertSentinel : Int := -(2 ^ 125)

/-- An ethers Signature: fields r, s (256-bit words) and v (u64). -/
structure EthSignature where
  r : Nat
  s : Nat
  v : Nat
deriving DecidableEq

/-- The three failure modes of der_to_ethers_signature (crypto/der.rs). -/
inductive DerError where
  | invalidDer
  | invalidDigestLength
  | unrecoverable
deriving DecidableEq

/-- One iteration of the recovery loop of crypto/der.rs lines 25 to 45. Public-key
recovery followed by keccak address derivation is modelled by the oracle `recover`,
which maps a recovery id to the derived Ethereum address, or none when recovery fails
for that id (for the compact signature and digest fixed by the enclosing call). A
recovery id is adopted when recovery succeeded and either no expected address was
supplied or the derived address equals the expected one. -/
def recidMatches (expected : Option Nat) (recover : Nat → Option Nat) (recid : Nat) : Bool :=
  match recover recid with
  | some addr =>
    match expected with
    | some e => e == addr
    | none => true
  | none => false

/-- The loop `for recid_val in 0..4` returns at the first adopted recovery id. -/
def firstMatchingRecid (expected : Option Nat) (recover : Nat → Option Nat) : Option Nat :=
  [0, 1, 2, 3].find? (recidMatches expected recover)

/-- Low-s enforcement of crypto/der.rs lines 37 to 41: when s > N/2, replace s by
N - s and flip v between 27 and 28. -/
def lowSAdjust (s v : Nat) : Nat × Nat :=
  if halfN < s then (secpN - s, if v = 27 then 28 else 27) else (s, v)

/-- der_to_ethers_signature of crypto/der.rs lines 9 to 49. The k256 DER parse
(Signature::from_der followed by to_bytes) is modelled by `parseDer`: the pair of
big-endian integers r, s of the 64-byte compact form, or none on a parse error. The
digest length check follows the parse, as in the source. -/
def der_to_ethers_signature (parseDer : Option (Nat × Nat)) (recover : Nat → Option Nat)
    (msg_hash : List Nat) (expected_address : Option Nat) : Except DerError EthSignature :=
  match parseDer with
  | none => .error .invalidDer
  | some (r0, s0) =>
    if msg_hash.length ≠ 32 then .error .invalidDigestLength
    else
      match firstMatchingRecid expected_address recover with
      | some recid =>
        let sv := lowSAdjust s0 (recid + 27)
        .ok ⟨r0, sv.1, sv.2⟩
      | none => .error .unrecoverable

/-- U256::from_big_endian over a byte list. -/
def beBytesToNat (bs : List Nat) : Nat :=
  bs.foldl (fun acc b => acc * 256 + b) 0

/-- The failure modes of the signature resolution in
RemoteBasedSigner::sign_typed_transaction (signer.rs). -/
inductive RemoteSigError where
  | couldNotRecover
  | unsupportedFormat
deriving DecidableEq

/-- Signature resolution of RemoteBasedSigner::sign_typed_transaction, signer.rs
lines 108 to 151: first try DER via der_to_ethers_signature with expected address
None; on any error, a 65-byte blob is split into r (bytes 0..32), s (bytes 32..64)
and v (byte 64) with no further checks; a 64-byte blob goes through the plain
recovery loop of lines 130 to 145, which adopts the first recovery id whose recovery
succeeds (oracle `recover64`) and keeps r and s as found in the bytes; other lengths
are rejected. -/
def resolveRemoteSignature (parseDer : Option (Nat × Nat)) (recover : Nat → Option Nat)
    (recover64 : Nat → Bool) (sighash : List Nat) (sig_bytes : List Nat) :
    Except RemoteSigError EthSignature :=
  match der_to_ethers_signature parseDer recover sighash none with
  | .ok s => .ok s
  | .error _ =>
    if sig_bytes.length = 65 then
      .ok ⟨beBytesToNat (sig_bytes.take 32), beBytesToNat ((sig_bytes.drop 32).take 32),
        (sig_bytes.drop 64).headD 0⟩
    else if sig_bytes.length = 64 then
      match [0, 1, 2, 3].find? recover64 with
      | some recid =>
        .ok ⟨beBytesToNat (sig_bytes.take 32), beBytesToNat ((sig_bytes.drop 32).take 32),
          recid + 27⟩
      | none => .error .couldNotRecover
    else .error .unsupportedFormat

/-- v normalization of signer.rs lines 154 to 160: for EIP-1559 transactions,
subtract 27 from v when v is at least 27. -/
def normalizeV (isEip1559 : Bool) (sig : EthSignature) : EthSignature :=
  if isEip1559 then ⟨sig.r, sig.s, if 27 ≤ sig.v then sig.v - 27 else sig.v⟩ else sig

/-- Eip1559TransactionRequest, reduced to the fields the verified code reads or
writes: nonce, gas, max_fee_per_gas, max_priority_fee_per_gas (all optional U256,
as in ethers). -/
structure Eip1559Request where
  nonce : Option Nat
  gas : Option Nat
  max_fee_per_gas : Option Nat
  max_priority_fee_per_gas : Option Nat
deriving DecidableEq

/-- Legacy TransactionRequest, reduced to nonce, gas, gas_price. -/
structure LegacyRequest where
  nonce : Option Nat
  gas : Option Nat
  gas_price : Option Nat
deriving DecidableEq

/-- The ethers TypedTransaction tagged union with its three variants; the Eip2930
payload is reduced to its nonce, the only field this code could read. -/
inductive TypedTransaction where
  | legacy (req : LegacyRequest)
  | eip2930 (nonce : Option Nat)
  | eip1559 (req : Eip1559Request)
deriving DecidableEq

/-- set_nonce_tx of sim.rs lines 244 to 252: only the Eip1559 variant has its nonce
replaced; every other variant is returned unchanged. -/
def set_nonce_tx (tx : TypedTransaction) (nonce : Nat) : TypedTransaction :=
  match tx with
  | .eip1559 req => .eip1559 { req with nonce := some nonce }
  | other => other

/-- Read the nonce field of any variant. -/
def nonceOf : TypedTransaction → Option Nat
  | .legacy req => req.nonce
  | .eip2930 n => n
  | .eip1559 req => req.nonce

/-- The nonce assignment loop of the per-offset sweep task, sim.rs lines 157 to 164:
starting from current = base_nonce + offset, each transaction in order is passed
through set_nonce_tx with the running value of current, which is then incremented. -/
def assignNoncesFrom (current : Nat) : List TypedTransaction → List TypedTransaction
  | [] => []
  | tx :: rest => set_nonce_tx tx current :: assignNoncesFrom (current + 1) rest

/-- The transaction list the per-offset task hands to the signer. -/
def offsetNonceSeq (base_nonce offset : Nat) (txs : List TypedTransaction) :
    List TypedTransaction :=
  assignNoncesFrom (base_nonce + offset) txs

/-- TransactionReceipt, reduced to the fields the scorers read. -/
structure Receipt where
  status : Option Nat
  gas_used : Option Nat
  effective_gas_price : Option Nat
deriving DecidableEq

/-- U256 saturating multiplication. -/
def u256SatMul (a b : Nat) : Nat := min (a * b) u256Max

/-- Rust `as i128` cast of a u128 value: two-complement reinterpretation. -/
def u128AsI128 (v : Nat) : Int := if v < 2 ^ 127 then (v : Int) else (v : Int) - 2 ^ 128

/-- sim.rs lines 35 to 38: TryInto<u128> on the saturated U256 cost succeeds exactly
when the value fits u128, and the result is cast with `as i128`; on failure the cost
is clamped to i128::MAX / 8. -/
def costToI128 (cost : Nat) : Int :=
  if cost ≤ u128Max then u128AsI128 cost else i128MaxDiv8

/-- Two-complement wrap-around of i128 arithmetic: release-build Rust overflow
semantics for the subtraction `total -= cost_i128` of sim.rs line 39 (a debug build
would abort there instead; both differ from saturation). -/
def wrapI128 (x : Int) : Int := (x + 2 ^ 127) % 2 ^ 128 - 2 ^ 127

/-- The receipt loop of GasCostScorer::score, sim.rs lines 21 to 42: a receipt with
status 0 makes the whole call return the revert sentinel at once; otherwise the cost
gas_used * effective_gas_price (missing fields default to zero) is converted to i128
and subtracted from the running total. -/
def gasCostScoreGo (total : Int) : List Receipt → Int
  | [] => total
  | r :: rest =>
    if r.status = some 0 then revertSentinel
    else
      gasCostScoreGo
        (wrapI128 (total - costToI128 (u256SatMul (r.gas_used.getD 0) (r.effective_gas_price.getD 0))))
        rest

/-- GasCostScorer::score (sim.rs lines 20 to 43). -/
def gasCostScore (receipts : List Receipt) : Int := gasCostScoreGo 0 receipts

/-- The exact per-receipt cost gas_used * effective_gas_price (missing fields default
to zero), written out once for reuse in statements about the scorer. -/
def rcost (r : Receipt) : Nat := (r.gas_used.getD 0) * (r.effective_gas_price.getD 0)

/-- Saturation of an unbounded integer to the i128 range. -/
def satToI128 (x : Int) : Int := max i128Min (min (2 ^ 127 - 1) x)

/-- Modelled from the spec words of the GasCostScorer claim, for comparison with
gasCostScore: the sentinel if any receipt has status 0, otherwise the negated exact
sum of gas_used * effective_gas_price saturated to i128 bounds. -/
def gasCostScoreClaim (receipts : List Receipt) : Int :=
  if receipts.any (fun r => r.status == some 0) then revertSentinel
  else
    satToI128
      (-(((receipts.map (fun r => (r.gas_used.getD 0) * (r.effective_gas_price.getD 0))).sum : Nat) : Int))

/-- The node RPC calls simulate_signed_bundle can issue (sim.rs lines 100 to 125). -/
inductive RpcCall where
  | snapshot
  | setBaseFee (bf : Nat)
  | sendRaw (idx : Nat)
  | revertSnap
deriving DecidableEq

/-- Outcome of broadcasting transaction i and awaiting its receipt (sim.rs lines
114 to 119): the broadcast can fail, the 10 s receipt await can time out, the node
can answer with no receipt, or a receipt is returned. -/
inductive TxStep where
  | sendFail
  | awaitTimeout
  | noReceipt
  | mined (r : Receipt)

/-- The error exits of simulate_signed_bundle. -/
inductive SimError where
  | snapshotFailed
  | setBaseFeeFailed
  | sendRawFailed
  | receiptTimeout
  | receiptMissing
  | revertFailed
deriving DecidableEq

/-- The broadcast loop and the final revert of simulate_signed_bundle (sim.rs lines
112 to 124). `remaining` counts transactions still to send, `i` is the index of the
next one, `trace` accumulates the RPC calls issued so far. Each of the three failure
outcomes propagates with the question-mark operator, returning at once with the trace
as it stands. Only after the loop has consumed every transaction is evm_revert
requested; its failure propagates as an error of its own. -/
def simSendLoop (step : Nat → TxStep) (revertOk : Bool) :
    Nat → Nat → List Receipt → List RpcCall → Except SimError (List Receipt) × List RpcCall
  | 0, _, acc, trace =>
    if revertOk then (.ok acc, trace ++ [.revertSnap])
    else (.error .revertFailed, trace ++ [.revertSnap])
  | remaining + 1, i, acc, trace =>
    match step i with
    | .sendFail => (.error .sendRawFailed, trace ++ [.sendRaw i])
    | .awaitTimeout => (.error .receiptTimeout, trace ++ [.sendRaw i])
    | .noReceipt => (.error .receiptMissing, trace ++ [.sendRaw i])
    | .mined r => simSendLoop step revertOk remaining (i + 1) (acc ++ [r]) (trace ++ [.sendRaw i])

/-- Simulator::simulate_signed_bundle (sim.rs lines 100 to 125), with the node RPC
modelled by oracles: `snapshotOk` whether evm_snapshot succeeds, `baseFeeOk` whether
evm_setNextBlockBaseFeePerGas succeeds, `step i` the outcome for the i-th raw
transaction, `revertOk` whether evm_revert succeeds. The second component is the
trace of RPC calls issued before the function returned. -/
def simulate_signed_bundle (snapshotOk baseFeeOk : Bool) (step : Nat → TxStep)
    (revertOk : Bool) (txCount : Nat) (set_next_block_base_fee : Option Nat) :
    Except SimError (List Receipt) × List RpcCall :=
  if snapshotOk then
    match set_next_block_base_fee with
    | some bf =>
      if baseFeeOk then simSendLoop step revertOk txCount 0 [] [.snapshot, .setBaseFee bf]
      else (.error .setBaseFeeFailed, [.snapshot, .setBaseFee bf])
    | none => simSendLoop step revertOk txCount 0 [] [.snapshot]
  else (.error .snapshotFailed, [.snapshot])

/-- One element of the list simulate_unsigned_bundle_try_nonces_with_scorer returns
(sim.rs line 142): nonce, score, receipts, signed bundle. -/
structure SweepOutcome where
  nonce : Nat
  score : Int
  receipts : List Receipt
  signed_blob : List (List Nat)
deriving DecidableEq

/-- The collection loop of the nonce sweep (sim.rs lines 172 to 179). The spawned
per-offset task is modelled by the oracle `attempt`: none when the offset failed
(signing error, simulation error or join error, logged and skipped), otherwise the
score, receipts and signed bundle; the outcome carries nonce base_nonce + offset
(sim.rs line 168). Tasks complete in the order given by `order`, a permutation of
the offsets 0..nonce_range drained from the unordered future set. -/
def sweepCollect (base_nonce : Nat)
    (attempt : Nat → Option (Int × List Receipt × List (List Nat)))
    (order : List Nat) : List SweepOutcome :=
  order.filterMap (fun off =>
    (attempt off).map (fun d => ⟨base_nonce + off, d.1, d.2.1, d.2.2⟩))

/-- results.sort_by_key(|t| t.0), sim.rs line 182: a stable sort by nonce. -/
def sortByNonce (l : List SweepOutcome) : List SweepOutcome :=
  List.insertionSort (fun a b => a.nonce ≤ b.nonce) l

/-- Simulator::simulate_unsigned_bundle_try_nonces_with_scorer (sim.rs lines 133 to
184), reduced to its observable outcome list: collect the successful offsets in
completion order, then sort by nonce. -/
def sweep (base_nonce nonce_range : Nat)
    (attempt : Nat → Option (Int × List Receipt × List (List Nat)))
    (order : List Nat) : List SweepOutcome :=
  sortByNonce (sweepCollect base_nonce attempt order)

/-- Modelled from the spec words for comparison with sweep: the successful outcomes
listed in offset order, hence ascending by nonce. -/
def sweepSpec (base_nonce nonce_range : Nat)
    (attempt : Nat → Option (Int × List Receipt × List (List Nat))) : List SweepOutcome :=
  (List.range nonce_range).filterMap (fun off =>
    (attempt off).map (fun d => ⟨base_nonce + off, d.1, d.2.1, d.2.2⟩))

/-- RelayClient (executor.rs lines 6 to 9): the reqwest client plus the optional
relay url. -/
structure RelayClient where
  relay_url : Option String

/-- Relay-side failures of the executor. -/
inductive RelayError where
  | relayNotConfigured
  | postFailed
  | invalidJson
deriving DecidableEq

/-- A network action of the relay client: one HTTP POST to a url. -/
inductive NetCall where
  | httpPost (url : String)
deriving DecidableEq

/-- RelayClient::submit_bundle (executor.rs lines 32 to 44), the legacy path: with a
relay url configured the body is posted (the HTTP exchange is the oracle `net`,
returning the response text or none on a transport failure); with no relay url the
stub marker string is returned and no network call is made. -/
def submit_bundle (c : RelayClient) (net : String → Option String) (bundle : List Nat) :
    Except RelayError String × List NetCall :=
  match c.relay_url with
  | some url =>
    match net url with
    | some txt => (.ok txt, [.httpPost url])
    | none => (.error .postFailed, [.httpPost url])
  | none => (.ok "stub", [])

/-- RelayClient::submit_flashbots_bundle (executor.rs lines 49 to 74): with no relay
url, fail with the not-configured error before any network activity; otherwise POST
the eth_sendBundle envelope. The oracle answers none for a transport failure,
some none for a non-JSON body, some (some v) for the parsed JSON value v (JSON
values are abstracted as strings). -/
def submit_flashbots_bundle (c : RelayClient) (net : String → Option (Option String))
    (signed_txs : List (List Nat)) (block_number : Option Nat) :
    Except RelayError String × List NetCall :=
  match c.relay_url with
  | none => (.error .relayNotConfigured, [])
  | some url =>
    match net url with
    | none => (.error .postFailed, [.httpPost url])
    | some none => (.error .invalidJson, [.httpPost url])
    | some (some v) => (.ok v, [.httpPost url])

/-- RelayClient::simulate_flashbots_bundle (executor.rs lines 77 to 97): identical
shape with the eth_simulateBundle method. -/
def simulate_flashbots_bundle (c : RelayClient) (net : String → Option (Option String))
    (signed_txs : List (List Nat)) (block_number : Option Nat) :
    Except RelayError String × List NetCall :=
  match c.relay_url with
  | none => (.error .relayNotConfigured, [])
  | some url =>
    match net url with
    | none => (.error .postFailed, [.httpPost url])
    | some none => (.error .invalidJson, [.httpPost url])
    | some (some v) => (.ok v, [.httpPost url])

/-- AutosubmitConfig (autosubmit.rs lines 10 to 22). The f64 field bump_factor is
not carried here: the bumped prices it produces enter the embedding through the
newPriceAt oracle of the bump loop. -/
structure AutosubmitConfig where
  max_retries : Nat
  poll_interval_secs : Nat
  max_wait_secs : Nat
  max_bumps : Nat
  kill_switch_max_gas_wei : Option Nat
  kill_switch_max_loss_wei : Option Int
deriving DecidableEq

/-- Rust unsigned integer division: defined only for a nonzero divisor; division by
zero aborts the program. -/
def rustDiv (a b : Nat) : Option Nat := if b = 0 then none else some (a / b)

/-- autosubmit.rs line 95: max_attempts = max_wait_secs / poll_interval_secs. -/
def maxPollAttempts (cfg : AutosubmitConfig) : Option Nat :=
  rustDiv cfg.max_wait_secs cfg.poll_interval_secs

/-- u128 saturating addition. -/
def u128SatAdd (a b : Nat) : Nat := min (a + b) u128Max

/-- u128 saturating multiplication. -/
def u128SatMul (a b : Nat) : Nat := min (a * b) u128Max

/-- Worst-case gas cost of one transaction at the bumped price (autosubmit.rs lines
128 to 145): gas limit (default 21000) times the bumped gas price, saturating in
u128. `newPrice` models the f64 computation ((base_price as f64) * factor) as u128
performed for the current attempt; the unknown variant contributes
21000.saturating_mul(0). -/
def txWorstCaseCost (newPrice : Nat → Nat) : TypedTransaction → Nat
  | .eip1559 req => u128SatMul (req.gas.getD 21000) (newPrice (req.max_fee_per_gas.getD 0))
  | .legacy req => u128SatMul (req.gas.getD 21000) (newPrice (req.gas_price.getD 0))
  | .eip2930 _ => u128SatMul 21000 0

/-- The worst-case cost accumulation of autosubmit.rs lines 125 to 146. -/
def worstCaseCost (newPrice : Nat → Nat) (txs : List TypedTransaction) : Nat :=
  txs.foldl (fun acc tx => u128SatAdd acc (txWorstCaseCost newPrice tx)) 0

/-- i128 saturating addition. -/
def i128SatAdd (a b : Int) : Int := max i128Min (min (2 ^ 127 - 1) (a + b))

/-- i128 saturating subtraction. -/
def i128SatSub (a b : Int) : Int := max i128Min (min (2 ^ 127 - 1) (a - b))

/-- total_pnl, the saturating sum of the expected pnl entries (autosubmit.rs line
158). -/
def totalPnl (pnls : List Int) : Int := pnls.foldl i128SatAdd 0

/-- How the gas-bump loop of submit_and_monitor_with_rebump ends (autosubmit.rs
lines 120 to 229). -/
inductive BumpOutcome where
  | killSwitchGas (attempt : Nat)
  | killSwitchLoss (attempt : Nat)
  | bumpsExhausted
deriving DecidableEq

/-- The gas kill switch of autosubmit.rs lines 148 to 153: configured and exceeded. -/
def gasCheckTriggers (maxGas : Option Nat) (cost : Nat) : Prop :=
  match maxGas with
  | some mg => mg < cost
  | none => False

instance (maxGas : Option Nat) (cost : Nat) : Decidable (gasCheckTriggers maxGas cost) :=
  match maxGas with
  | some mg => inferInstanceAs (Decidable (mg < cost))
  | none => inferInstanceAs (Decidable False)

/-- The loss kill switch of autosubmit.rs lines 156 to 166: it runs only when an
expected pnl vector was supplied and a loss bound is configured, and compares the
saturating difference of the worst-case cost (cast u128 to i128) and the saturating
pnl sum against the bound. -/
def lossCheckTriggers (maxLoss : Option Int) (pnl : Option (List Int)) (cost : Nat) : Prop :=
  match pnl, maxLoss with
  | some ps, some ml => ml < i128SatSub (u128AsI128 cost) (totalPnl ps)
  | _, _ => False

instance (maxLoss : Option Int) (pnl : Option (List Int)) (cost : Nat) :
    Decidable (lossCheckTriggers maxLoss pnl cost) :=
  match pnl, maxLoss with
  | some ps, some ml => inferInstanceAs (Decidable (ml < i128SatSub (u128AsI128 cost) (totalPnl ps)))
  | some _, none => inferInstanceAs (Decidable False)
  | none, some _ => inferInstanceAs (Decidable False)
  | none, none => inferInstanceAs (Decidable False)

/-- The gas-bump loop of submit_and_monitor_with_rebump (autosubmit.rs lines 120 to
226) followed by the bumps-exhausted error of line 229. `newPriceAt k` models the
f64 price bump of attempt k (1-based, factor bump_factor^k) applied to the original
unsigned transactions; `k` is the attempt about to run, `remaining` the attempts
left, and the accumulated list records the attempts that re-signed and broadcast
their bumped transactions. Both kill switches are evaluated before the re-signing
and broadcasting of the attempt, and an aborted attempt broadcasts nothing. -/
def bumpLoop (newPriceAt : Nat → Nat → Nat) (txs : List TypedTransaction)
    (maxGas : Option Nat) (maxLoss : Option Int) (pnl : Option (List Int)) :
    Nat → Nat → List Nat → BumpOutcome × List Nat
  | _, 0, broadcasts => (.bumpsExhausted, broadcasts)
  | k, remaining + 1, broadcasts =>
    let cost := worstCaseCost (newPriceAt k) txs
    if gasCheckTriggers maxGas cost then (.killSwitchGas k, broadcasts)
    else if lossCheckTriggers maxLoss pnl cost then (.killSwitchLoss k, broadcasts)
    else bumpLoop newPriceAt txs maxGas maxLoss pnl (k + 1) remaining (broadcasts ++ [k])

/-- The whole bump phase: attempts run from 1 up to max_bumps. -/
def bumpPhase (newPriceAt : Nat → Nat → Nat) (txs : List TypedTransaction)
    (maxGas : Option Nat) (maxLoss : Option Int) (pnl : Option (List Int))
    (max_bumps : Nat) : BumpOutcome × List Nat :=
  bumpLoop newPriceAt txs maxGas maxLoss pnl 1 max_bumps []

/-- The f64 price bump of attempt k with bump_factor = 1.25: the factor is
1.25^k = 5^k / 4^k. For the kill-switch scenario inputs (base = 10^11, k at most 3)
every intermediate f64 value (powi result and product) is exactly representable in
53-bit precision, so the float computation of autosubmit.rs lines 121 and 132 equals
this exact rational floor. -/
def scenarioNewPrice (k base : Nat) : Nat := base * 5 ^ k / 4 ^ k

/-- One scenario transaction: EIP-1559, gas_limit 21000, max_fee 10^11,
max_priority_fee 10^9. -/
def scenarioTx : TypedTransaction :=
  .eip1559 ⟨some 0, some 21000, some (10 ^ 11), some (10 ^ 9)⟩

/-- The kill-switch scenario bundle: two such transactions. -/
def scenarioTxs : List TypedTransaction := [scenarioTx, scenarioTx]

/-- How the polling loop ends when it ends. -/
inductive PollResult where
  | allIncluded
  | inclusionTimeout
deriving DecidableEq

/-- The polling loop of submit_and_monitor_with_rebump (autosubmit.rs lines 97 to
245) on the path with no signer and no unsigned transactions (the else branch at
line 230), for a run in which no receipt ever becomes available, so receipts_json
stays empty. Each recursion step is one iteration of the outer loop: the attempt
counter is incremented, inclusion is checked (it holds only for an empty bundle),
and once the counter reaches max_attempts the raw transactions are re-broadcast
max_retries times in a row (counted in `rounds`) and the counter resets to zero,
except that max_retries = 0 returns the inclusion-timeout error instead. The fuel
bounds the number of loop iterations observed; none means the loop was still
running after that many iterations. -/
def pollLoopNoSigner (max_retries max_attempts txCount : Nat) :
    Nat → Nat → Nat → Option (PollResult × Nat)
  | 0, _, _ => none
  | fuel + 1, attempts, rounds =>
    let attempts1 := attempts + 1
    if txCount = 0 then some (.allIncluded, rounds)
    else if max_attempts ≤ attempts1 then
      if max_retries = 0 then some (.inclusionTimeout, rounds)
      else pollLoopNoSigner max_retries max_attempts txCount fuel 0 (rounds + max_retries)
    else pollLoopNoSigner max_retries max_attempts txCount fuel attempts1 rounds

/-- The loop runs beyond any iteration bound: no exit is ever reached. -/
def pollLoopDiverges (max_retries max_attempts txCount : Nat) : Prop :=
  ∀ fuel attempts rounds,
    pollLoopNoSigner max_retries max_attempts txCount fuel attempts rounds = none

/-- The relation the sweep sorts by. -/
instance : IsTotal SweepOutcome (fun a b => a.nonce ≤ b.nonce) :=
  ⟨fun a b => Nat.le_total a.nonce b.nonce⟩

instance : IsTrans SweepOutcome (fun a b => a.nonce ≤ b.nonce) :=
  ⟨fun _ _ _ => Nat.le_trans⟩

instance : IsAntisymm SweepOutcome (fun a b => a.nonce < b.nonce) :=
  ⟨fun _ _ h1 h2 => absurd h2 (Nat.lt_asymm h1)⟩

/-! Helper lemmas -/

theorem secpN_odd : secpN = 2 * halfN + 1 := by decide

theorem lowSAdjust_s_le (s v : Nat) (hsN : s < secpN) : (lowSAdjust s v).1 ≤ halfN := by
  unfold lowSAdjust
  have hodd := secpN_odd
  by_cases h : halfN < s
  · simp only [h, if_pos]
    omega
  · simp only [h, if_neg, not_false_iff]
    omega

theorem wrapI128_eq_self (x : Int) (h1 : -(2 ^ 127) ≤ x) (h2 : x < 2 ^ 127) :
    wrapI128 x = x := by
  unfold wrapI128
  have h3 : (0 : Int) ≤ x + 2 ^ 127 := by linarith
  have h4 : x + 2 ^ 127 < 2 ^ 128 := by
    have he : (2 : Int) ^ 128 = 2 ^ 127 + 2 ^ 127 := by norm_num
    linarith
  rw [Int.emod_eq_of_lt h3 h4]
  ring

theorem gasCostScoreGo_revert (l : List Receipt) (total : Int)
    (h : ∃ r ∈ l, r.status = some 0) : gasCostScoreGo total l = revertSentinel := by
  induction l generalizing total with
  | nil =>
    obtain ⟨r, hr, _⟩ := h
    cases hr
  | cons a rest ih =>
    obtain ⟨r, hr, hst⟩ := h
    by_cases ha : a.status = some 0
    · simp [gasCostScoreGo, ha]
    · have hmem : r ∈ rest := by
        rcases List.mem_cons.mp hr with h1 | h1
        · exact absurd (h1 ▸ hst) ha
        · exact h1
      simp only [gasCostScoreGo, ha, if_neg, not_false_iff]
      exact ih _ ⟨r, hmem, hst⟩

theorem gasCostScoreGo_no_revert (l : List Receipt) (total : Int)
    (hs : ∀ r ∈ l, r.status ≠ some 0)
    (hc : ∀ r ∈ l, rcost r < 2 ^ 127)
    (ht : total ≤ 0)
    (hb : -(2 ^ 127 : Int) ≤ total - ((l.map rcost).sum : Int)) :
    gasCostScoreGo total l = total - ((l.map rcost).sum : Int) := by
  induction l generalizing total with
  | nil => simp [gasCostScoreGo]
  | cons a rest ih =>
    have ha := hs a (List.mem_cons_self a rest)
    have hca := hc a (List.mem_cons_self a rest)
    have hp127 : (0 : Int) < 2 ^ 127 := by norm_num
    have h256 : u256SatMul (a.gas_used.getD 0) (a.effective_gas_price.getD 0) = rcost a := by
      have hle : rcost a ≤ 2 ^ 256 - 1 :=
        le_trans (le_of_lt hca) (by norm_num)
      exact min_eq_left hle
    have hcost : costToI128 (rcost a) = ((rcost a : Nat) : Int) := by
      have h1 : rcost a ≤ u128Max :=
        le_trans (le_of_lt hca) (by norm_num [u128Max])
      unfold costToI128 u128AsI128
      rw [if_pos h1, if_pos hca]
    have hsplit : (((a :: rest).map rcost).sum : Int)
        = (rcost a : Int) + ((rest.map rcost).sum : Int) := by
      push_cast [List.map_cons, List.sum_cons]
      ring
    have hra : (0 : Int) ≤ (rcost a : Int) := Int.natCast_nonneg _
    have hrs : (0 : Int) ≤ ((rest.map rcost).sum : Int) := Int.natCast_nonneg _
    rw [hsplit] at hb
    have hstep : gasCostScoreGo total (a :: rest)
        = gasCostScoreGo
            (wrapI128 (total - costToI128
              (u256SatMul (a.gas_used.getD 0) (a.effective_gas_price.getD 0)))) rest := by
      simp [gasCostScoreGo, ha]
    rw [hstep, h256, hcost]
    rw [wrapI128_eq_self _ (by linarith) (by linarith)]
    rw [ih (total - (rcost a : Int))
      (fun r hr => hs r (List.mem_cons_of_mem a hr))
      (fun r hr => hc r (List.mem_cons_of_mem a hr))
      (by linarith) (by linarith)]
    rw [hsplit]
    ring

theorem assignNonces_map_nonce (c : Nat) (txs : List TypedTransaction)
    (h : ∀ tx ∈ txs, ∃ req, tx = TypedTransaction.eip1559 req) :
    (assignNoncesFrom c txs).map nonceOf
      = (List.range txs.length).map (fun i => some (c + i)) := by
  induction txs generalizing c with
  | nil => rfl
  | cons a l ih =>
    obtain ⟨req, rfl⟩ := h a (List.mem_cons_self a l)
    have ht := ih (c + 1) (fun tx htx => h tx (List.mem_cons_of_mem _ htx))
    simp only [assignNoncesFrom, List.map_cons, ht, set_nonce_tx, nonceOf, List.length_cons]
    rw [List.range_succ_eq_map, List.map_cons, List.map_map]
    simp only [Nat.add_zero]
    congr 1
    apply List.map_congr_left
    intro i _
    simp only [Function.comp_apply]
    congr 1
    omega

/-! Claim theorems -/

/-- Claim C10 (confirmed): the computation of the maximum poll-attempt count in
Autosubmitter::submit_and_monitor_with_rebump divides max_wait_secs by
poll_interval_secs, so poll_interval_secs = 0 divides by zero and aborts (modelled
as none); totality needs the unstated precondition poll_interval_secs > 0, under
which the count is the integer quotient. -/
theorem c10_poll_interval_zero_divides (cfg : AutosubmitConfig) :
    (cfg.poll_interval_secs = 0 → maxPollAttempts cfg = none) ∧
    (0 < cfg.poll_interval_secs →
      maxPollAttempts cfg = some (cfg.max_wait_secs / cfg.poll_interval_secs)) := by
  constructor
  · intro h
    simp [maxPollAttempts, rustDiv, h]
  · intro h
    simp [maxPollAttempts, rustDiv, Nat.pos_iff_ne_zero.mp h]

theorem c10_witness :
    maxPollAttempts ⟨3, 0, 30, 3, none, none⟩ = none ∧
    maxPollAttempts ⟨3, 2, 30, 3, none, none⟩ = some 15 := by
  constructor
  · exact (c10_poll_interval_zero_divides ⟨3, 0, 30, 3, none, none⟩).1 rfl
  · exact (c10_poll_interval_zero_divides ⟨3, 2, 30, 3, none, none⟩).2 (by norm_num)

/-- Claim C8 (confirmed): with no relay url configured, submit_flashbots_bundle and
simulate_flashbots_bundle both fail with the not-configured error and the legacy
submit_bundle returns the stub marker string, all without a single network call. -/
theorem c8_relay_unconfigured (c : RelayClient) (net1 : String → Option String)
    (net2 net3 : String → Option (Option String)) (bundle : List Nat)
    (signed : List (List Nat)) (bn : Option Nat) (h : c.relay_url = none) :
    submit_flashbots_bundle c net2 signed bn = (.error .relayNotConfigured, []) ∧
    simulate_flashbots_bundle c net3 signed bn = (.error .relayNotConfigured, []) ∧
    submit_bundle c net1 bundle = (.ok "stub", []) := by
  obtain ⟨u⟩ := c
  subst h
  exact ⟨rfl, rfl, rfl⟩

theorem c8_witness :
    submit_flashbots_bundle ⟨none⟩ (fun _ => none) [[1, 2, 3]] (some 12345)
        = (.error .relayNotConfigured, []) ∧
    simulate_flashbots_bundle ⟨none⟩ (fun _ => none) [[1, 2, 3]] (some 12345)
        = (.error .relayNotConfigured, []) ∧
    submit_bundle ⟨none⟩ (fun _ => none) [1, 2, 3] = (.ok "stub", []) :=
  c8_relay_unconfigured ⟨none⟩ (fun _ => none) (fun _ => none) (fun _ => none)
    [1, 2, 3] [[1, 2, 3]] (some 12345) rfl

/-- Claim C4 counterexample: a Legacy transaction travels through the nonce-sweep
assignment with its original nonce unchanged; for base_nonce 7 and offset 0 the
claim demands nonce 7 + 0 + 0 for the first transaction, but the clone keeps
nonce 0. -/
theorem c4_counterexample_legacy_nonce_unchanged :
    (offsetNonceSeq 7 0 [TypedTransaction.legacy ⟨some 0, some 21000, some (10 ^ 9)⟩]).map nonceOf
        = [some 0] ∧
    (some 0 : Option Nat) ≠ some (7 + 0 + 0) :=
  ⟨rfl, by decide⟩

/-- Claim C4 corrected: in the nonce sweep, the i-th clone signed for offset k gets
nonce base_nonce + k + i only when it is an EIP-1559 transaction (then the nonces
are strictly increasing from base_nonce + k); set_nonce_tx returns every other
variant, Legacy included, unchanged, so such transactions keep their original
nonce. -/
theorem c4_nonce_overwrite_eip1559_only (base_nonce offset : Nat)
    (txs : List TypedTransaction)
    (hall : ∀ tx ∈ txs, ∃ req, tx = TypedTransaction.eip1559 req) :
    (offsetNonceSeq base_nonce offset txs).map nonceOf
      = (List.range txs.length).map (fun i => some (base_nonce + offset + i)) ∧
    (∀ tx nonce, (∀ req, tx ≠ TypedTransaction.eip1559 req) → set_nonce_tx tx nonce = tx) := by
  constructor
  · exact assignNonces_map_nonce (base_nonce + offset) txs hall
  · intro tx nonce hne
    cases tx with
    | legacy req => rfl
    | eip2930 n => rfl
    | eip1559 req => exact absurd rfl (hne req)

theorem c4_witness :
    (offsetNonceSeq 5 2 [TypedTransaction.eip1559 ⟨none, none, none, none⟩,
        TypedTransaction.eip1559 ⟨some 9, some 21000, some 100, some 10⟩]).map nonceOf
      = [some 7, some 8] ∧
    set_nonce_tx (TypedTransaction.legacy ⟨some 1, none, none⟩) 9
      = TypedTransaction.legacy ⟨some 1, none, none⟩ := by
  have h := c4_nonce_overwrite_eip1559_only 5 2
    [TypedTransaction.eip1559 ⟨none, none, none, none⟩,
      TypedTransaction.eip1559 ⟨some 9, some 21000, some 100, some 10⟩]
    (by
      intro tx htx
      rcases List.mem_cons.mp htx with h1 | h1
      · exact ⟨_, h1⟩
      · rcases List.mem_cons.mp h1 with h2 | h2
        · exact ⟨_, h2⟩
        · cases h2)
  exact ⟨h.1, h.2 _ 9 (fun req hreq => TypedTransaction.noConfusion hreq)⟩

set_option maxRecDepth 4000 in
/-- Claim C9 counterexample: one successful receipt with
gas_used = effective_gas_price = 2^64 has exact cost 2^128, which exceeds u128; the
code clamps the cost to i128::MAX / 8 and returns its negation, while the claim
(negated sum saturated to i128 bounds) would give i128::MIN. -/
theorem c9_counterexample_clamp_not_saturate :
    gasCostScore [⟨some 1, some (2 ^ 64), some (2 ^ 64)⟩] = -i128MaxDiv8 ∧
    gasCostScoreClaim [⟨some 1, some (2 ^ 64), some (2 ^ 64)⟩] = i128Min ∧
    -i128MaxDiv8 ≠ i128Min := by
  refine ⟨?_, ?_, by decide⟩
  · show gasCostScoreGo 0 [⟨some 1, some (2 ^ 64), some (2 ^ 64)⟩] = -i128MaxDiv8
    norm_num [gasCostScoreGo, u256SatMul, u256Max, costToI128, u128Max, u128AsI128,
      wrapI128, i128MaxDiv8, rcost]
  · norm_num [gasCostScoreClaim, satToI128, i128Min, revertSentinel]

/-- Claim C9 corrected: GasCostScorer::score returns the sentinel i128::MIN / 4 as
soon as any receipt has status 0; otherwise it returns the negated sum of
per-receipt costs, where each cost gas_used * effective_gas_price is saturated in
U256, clamped to i128::MAX / 8 when it exceeds the u128 range, and cast to i128,
while the accumulation itself is plain non-saturating i128 subtraction; in
particular, whenever every per-receipt cost is below 2^127 and the exact sum is at
most 2^127, the result is exactly the negated exact sum. -/
theorem c9_scorer_revert_and_clamp (receipts : List Receipt) :
    ((∃ r ∈ receipts, r.status = some 0) → gasCostScore receipts = revertSentinel) ∧
    ((∀ r ∈ receipts, r.status ≠ some 0) →
      (∀ r ∈ receipts, rcost r < 2 ^ 127) →
      (receipts.map rcost).sum ≤ 2 ^ 127 →
      gasCostScore receipts = -(((receipts.map rcost).sum : Nat) : Int)) := by
  constructor
  · exact fun h => gasCostScoreGo_revert receipts 0 h
  · intro h1 h2 h3
    have hcast : (((receipts.map rcost).sum : Nat) : Int) ≤ (2 : Int) ^ 127 := by
      exact_mod_cast h3
    have hb : -(2 ^ 127 : Int) ≤ (0 : Int) - (((receipts.map rcost).sum : Nat) : Int) := by
      linarith
    have h := gasCostScoreGo_no_revert receipts 0 h1 h2 le_rfl hb
    unfold gasCostScore
    rw [h]
    ring

/-- Claim C2 counterexample: a remote signer that answers with a 65-byte compact
blob whose s part is 32 bytes of 0xff (and which is not parseable DER) makes
RemoteBasedSigner::sign_typed_transaction resolve a signature with
s = 2^256 - 1 > N/2: the compact path applies no low-s enforcement. -/
theorem c2_counterexample_compact65_high_s :
    resolveRemoteSignature none (fun _ => none) (fun _ => false) (List.replicate 32 0)
        (List.replicate 32 0 ++ List.replicate 32 255 ++ [28])
      = .ok ⟨0, 2 ^ 256 - 1, 28⟩ ∧
    halfN < 2 ^ 256 - 1 :=
  ⟨rfl, by decide⟩

/-- Claim C2 corrected: only the DER resolution path of
RemoteBasedSigner::sign_typed_transaction guarantees low-s canonical form (the
reconstructor enforces it); when the DER path fails and the remote bytes are a
65-byte (or 64-byte) compact signature, s is taken from the bytes unchanged, with no
low-s enforcement, so a remote returning a high-s compact signature yields a high-s
signature. -/
theorem c2_low_s_der_path_only (parseDer : Option (Nat × Nat)) (recover : Nat → Option Nat)
    (recover64 : Nat → Bool) (sighash sig_bytes : List Nat) (r0 s0 : Nat)
    (hparse : parseDer = some (r0, s0)) (hsN : s0 < secpN) :
    (∀ sig, der_to_ethers_signature parseDer recover sighash none = .ok sig →
      resolveRemoteSignature parseDer recover recover64 sighash sig_bytes = .ok sig ∧
        sig.s ≤ halfN) ∧
    ((∃ e, der_to_ethers_signature parseDer recover sighash none = .error e) →
      sig_bytes.length = 65 →
      ∃ sig, resolveRemoteSignature parseDer recover recover64 sighash sig_bytes = .ok sig ∧
        sig.s = beBytesToNat ((sig_bytes.drop 32).take 32)) := by
  subst hparse
  constructor
  · intro sig hok
    constructor
    · unfold resolveRemoteSignature
      rw [hok]
    · simp only [der_to_ethers_signature] at hok
      by_cases hlen : sighash.length ≠ 32
      · rw [if_pos hlen] at hok
        exact Except.noConfusion hok
      · rw [if_neg hlen] at hok
        cases hfm : firstMatchingRecid none recover with
        | none =>
          rw [hfm] at hok
          exact Except.noConfusion hok
        | some recid =>
          rw [hfm] at hok
          cases hok
          exact lowSAdjust_s_le s0 (recid + 27) hsN
  · rintro ⟨e, herr⟩ hlen
    refine ⟨⟨beBytesToNat (sig_bytes.take 32), beBytesToNat ((sig_bytes.drop 32).take 32),
      (sig_bytes.drop 64).headD 0⟩, ?_, rfl⟩
    unfold resolveRemoteSignature
    rw [herr, if_pos hlen]

theorem c2_witness :
    resolveRemoteSignature (some (1, 5)) (fun j => if j = 1 then some 9 else none)
        (fun _ => false) (List.replicate 32 0) (List.replicate 32 0)
      = .ok ⟨1, 5, 28⟩ ∧
    (⟨1, 5, 28⟩ : EthSignature).s ≤ halfN :=
  (c2_low_s_der_path_only (some (1, 5)) (fun j => if j = 1 then some 9 else none)
    (fun _ => false) (List.replicate 32 0) (List.replicate 32 0) 1 5 rfl (by decide)).1
    ⟨1, 5, 28⟩ rfl

/-- Claim C3 (confirmed): for every DER signature that parses to a valid (r, s) and
matches the expected address at a recovery id in the standard pair 0 or 1 (public-key
recovery with ids 2 or 3 needs r + N below the field prime, a fraction about 2^-127
of the scalar range, and never arises for honestly generated signatures), the
reconstructor returns Ok (r, s, v) with s at most N/2 and v in the set 27, 28;
s at most N/2 (in particular s = N/2) is returned unchanged with v = recid + 27,
s above N/2 (in particular s = N/2 + 1) is replaced by N - s with v toggled between
27 and 28; and a digest whose length is not 32 bytes is rejected with the
digest-length error. -/
theorem c3_der_reconstruct_low_s (parseDer : Option (Nat × Nat))
    (recover : Nat → Option Nat) (msg_hash : List Nat) (expected : Option Nat)
    (r0 s0 : Nat) (hparse : parseDer = some (r0, s0)) (hsN : s0 < secpN) :
    (msg_hash.length = 32 →
      (∃ j, j < 2 ∧ recidMatches expected recover j = true) →
      ∃ recid sig, recid < 2 ∧
        firstMatchingRecid expected recover = some recid ∧
        der_to_ethers_signature parseDer recover msg_hash expected = .ok sig ∧
        sig.r = r0 ∧ sig.s ≤ halfN ∧ (sig.v = 27 ∨ sig.v = 28) ∧
        (s0 ≤ halfN → sig.s = s0 ∧ sig.v = recid + 27) ∧
        (halfN < s0 → sig.s = secpN - s0 ∧
          sig.v = (if recid + 27 = 27 then 28 else 27))) ∧
    (msg_hash.length ≠ 32 →
      der_to_ethers_signature parseDer recover msg_hash expected
        = .error .invalidDigestLength) := by
  subst hparse
  constructor
  · intro hlen hex
    have hfm : ∃ recid, recid < 2 ∧ firstMatchingRecid expected recover = some recid := by
      obtain ⟨j, hj2, hj⟩ := hex
      by_cases h0 : recidMatches expected recover 0 = true
      · exact ⟨0, by omega, by simp [firstMatchingRecid, List.find?, h0]⟩
      · have h0f : recidMatches expected recover 0 = false := by
          revert h0
          cases recidMatches expected recover 0 <;> simp
        have hj1 : j = 1 := by
          rcases j with _ | j
          · exact absurd hj h0
          · omega
        subst hj1
        exact ⟨1, by omega, by simp [firstMatchingRecid, List.find?, h0f, hj]⟩
    obtain ⟨recid, hr2, hfirst⟩ := hfm
    refine ⟨recid,
      ⟨r0, (lowSAdjust s0 (recid + 27)).1, (lowSAdjust s0 (recid + 27)).2⟩,
      hr2, hfirst, ?_, rfl, ?_, ?_, ?_, ?_⟩
    · simp only [der_to_ethers_signature]
      rw [if_neg (fun h => h hlen), hfirst]
    · exact lowSAdjust_s_le s0 (recid + 27) hsN
    · unfold lowSAdjust
      by_cases h : halfN < s0
      · rw [if_pos h]
        by_cases h27 : recid + 27 = 27
        · exact Or.inr (by simp [h27])
        · exact Or.inl (by simp [h27])
      · rw [if_neg h]
        rcases recid with _ | (_ | n)
        · exact Or.inl rfl
        · exact Or.inr rfl
        · omega
    · intro hle
      unfold lowSAdjust
      rw [if_neg (by omega)]
      exact ⟨rfl, rfl⟩
    · intro hgt
      unfold lowSAdjust
      rw [if_pos hgt]
      exact ⟨rfl, rfl⟩
  · intro hne
    simp only [der_to_ethers_signature]
    rw [if_pos hne]

theorem c3_witness :
    der_to_ethers_signature (some (1, 5)) (fun j => if j = 1 then some 9 else none)
        (List.replicate 32 0) (some 9) = .ok ⟨1, 5, 28⟩ ∧
    (⟨1, 5, 28⟩ : EthSignature).s ≤ halfN ∧
    ((⟨1, 5, 28⟩ : EthSignature).v = 27 ∨ (⟨1, 5, 28⟩ : EthSignature).v = 28) := by
  obtain ⟨recid, sig, hr2, hfirst, hok, hr, hs, hv, hle, hgt⟩ :=
    (c3_der_reconstruct_low_s (some (1, 5)) (fun j => if j = 1 then some 9 else none)
      (List.replicate 32 0) (some 9) 1 5 rfl (by decide)).1 (by decide)
      ⟨1, by decide, by decide⟩
  have hsig : sig = ⟨1, 5, 28⟩ := by
    have h2 : (Except.ok sig : Except DerError EthSignature) = .ok ⟨1, 5, 28⟩ := by
      rw [← hok]
      rfl
    exact Except.ok.inj h2
  subst hsig
  exact ⟨hok, hs, hv⟩

theorem simSendLoop_revert_in_trace (step : Nat → TxStep) (revertOk : Bool) :
    ∀ remaining i acc trace,
      (∀ j, j < i + remaining → ∃ r, step j = TxStep.mined r) →
      RpcCall.revertSnap ∈ (simSendLoop step revertOk remaining i acc trace).2 := by
  intro remaining
  induction remaining with
  | zero =>
    intro i acc trace _
    by_cases h : revertOk = true
    · simp [simSendLoop, h]
    · simp [simSendLoop, h]
  | succ n ih =>
    intro i acc trace hall
    obtain ⟨r, hr⟩ := hall i (by omega)
    simp only [simSendLoop]
    rw [hr]
    exact ih (i + 1) (acc ++ [r]) (trace ++ [.sendRaw i]) (fun j hj => hall j (by omega))

theorem simSendLoop_no_revert (step : Nat → TxStep) (revertOk : Bool) :
    ∀ remaining i acc trace jf,
      i ≤ jf → jf < i + remaining →
      (∀ k, i ≤ k → k < jf → ∃ r, step k = TxStep.mined r) →
      (∀ r, step jf ≠ TxStep.mined r) →
      RpcCall.revertSnap ∉ trace →
      RpcCall.revertSnap ∉ (simSendLoop step revertOk remaining i acc trace).2 := by
  intro remaining
  induction remaining with
  | zero =>
    intro i acc trace jf h1 h2 _ _ _
    omega
  | succ n ih =>
    intro i acc trace jf h1 h2 hpre hf htr
    have htr2 : RpcCall.revertSnap ∉ trace ++ [RpcCall.sendRaw i] := by
      intro hmem
      rcases List.mem_append.mp hmem with hm | hm
      · exact htr hm
      · simp at hm
    simp only [simSendLoop]
    by_cases hij : i = jf
    · subst hij
      cases hs : step i with
      | mined r => exact absurd hs (hf r)
      | sendFail => exact htr2
      | awaitTimeout => exact htr2
      | noReceipt => exact htr2
    · have hlt : i < jf := by omega
      obtain ⟨r, hr⟩ := hpre i le_rfl hlt
      rw [hr]
      exact ih (i + 1) (acc ++ [r]) (trace ++ [.sendRaw i]) jf (by omega) (by omega)
        (fun k hk1 hk2 => hpre k (by omega) hk2) hf htr2

/-- Claim C1 counterexample: a bundle of one transaction whose broadcast fails makes
simulate_signed_bundle return the broadcast error with trace snapshot, send only:
the early return of the question-mark operator skips evm_revert, so the snapshot is
not reverted on this exit path. -/
theorem c1_counterexample_no_revert_on_send_failure :
    (simulate_signed_bundle true true (fun _ => TxStep.sendFail) true 1 none).1
        = .error .sendRawFailed ∧
    RpcCall.revertSnap ∉
      (simulate_signed_bundle true true (fun _ => TxStep.sendFail) true 1 none).2 :=
  ⟨rfl, by decide⟩

/-- Claim C1 corrected: simulate_signed_bundle issues evm_revert only on the path
where the snapshot succeeded, the optional base-fee override succeeded and every
transaction was broadcast and got its receipt; on a broadcast failure, receipt
timeout or missing receipt (and likewise when the snapshot or the base-fee call
itself fails) the function returns early without issuing evm_revert, so the node
state is not restored on those exit paths. -/
theorem c1_snapshot_revert_paths (baseFeeOk : Bool) (step : Nat → TxStep)
    (revertOk : Bool) (txCount : Nat) (bf : Option Nat) :
    ((∀ i, i < txCount → ∃ r, step i = TxStep.mined r) →
      (bf = none ∨ baseFeeOk = true) →
      RpcCall.revertSnap ∈
        (simulate_signed_bundle true baseFeeOk step revertOk txCount bf).2) ∧
    ((∃ jf, jf < txCount ∧ (∀ k, k < jf → ∃ r, step k = TxStep.mined r) ∧
        (∀ r, step jf ≠ TxStep.mined r)) →
      RpcCall.revertSnap ∉
        (simulate_signed_bundle true baseFeeOk step revertOk txCount bf).2) ∧
    (simulate_signed_bundle false baseFeeOk step revertOk txCount bf).2 = [.snapshot] ∧
    (∀ b, baseFeeOk = false →
      (simulate_signed_bundle true baseFeeOk step revertOk txCount (some b)).2
        = [.snapshot, .setBaseFee b]) := by
  refine ⟨?_, ?_, rfl, ?_⟩
  · intro hall hbf
    cases bf with
    | none =>
      exact simSendLoop_revert_in_trace step revertOk txCount 0 [] [.snapshot]
        (fun j hj => hall j (by omega))
    | some b =>
      rcases hbf with hnone | htrue
      · exact Option.noConfusion hnone
      · subst htrue
        exact simSendLoop_revert_in_trace step revertOk txCount 0 []
          [.snapshot, .setBaseFee b] (fun j hj => hall j (by omega))
  · rintro ⟨jf, hjf, hpre, hf⟩
    cases bf with
    | none =>
      exact simSendLoop_no_revert step revertOk txCount 0 [] [.snapshot] jf (by omega)
        (by omega) (fun k hk1 hk2 => hpre k hk2) hf (by simp)
    | some b =>
      cases baseFeeOk with
      | true =>
        exact simSendLoop_no_revert step revertOk txCount 0 []
          [.snapshot, .setBaseFee b] jf (by omega) (by omega)
          (fun k hk1 hk2 => hpre k hk2) hf (by simp)
      | false =>
        simp [simulate_signed_bundle]
  · intro b hb
    subst hb
    rfl

theorem c1_witness :
    RpcCall.revertSnap ∈
      (simulate_signed_bundle true true
        (fun _ => TxStep.mined ⟨some 1, some 21000, some 5⟩) true 1 none).2 :=
  (c1_snapshot_revert_paths true (fun _ => TxStep.mined ⟨some 1, some 21000, some 5⟩)
    true 1 none).1 (fun i _ => ⟨⟨some 1, some 21000, some 5⟩, rfl⟩) (Or.inl rfl)

theorem sweepSpec_pairwise (base_nonce n : Nat)
    (attempt : Nat → Option (Int × List Receipt × List (List Nat))) :
    (sweepSpec base_nonce n attempt).Pairwise (fun a b => a.nonce < b.nonce) := by
  unfold sweepSpec
  rw [List.pairwise_filterMap]
  refine List.Pairwise.imp ?_ (List.pairwise_lt_range n)
  intro a b hab c hc d hd
  cases ha : attempt a with
  | none =>
    rw [ha] at hc
    simp at hc
  | some da =>
    cases hb : attempt b with
    | none =>
      rw [hb] at hd
      simp at hd
    | some db =>
      rw [ha] at hc
      rw [hb] at hd
      simp only [Option.map_some', Option.mem_def, Option.some.injEq] at hc hd
      subst hc
      subst hd
      show base_nonce + a < base_nonce + b
      omega

theorem sweep_eq_spec (base_nonce n : Nat)
    (attempt : Nat → Option (Int × List Receipt × List (List Nat))) (order : List Nat)
    (horder : order.Perm (List.range n)) :
    sweep base_nonce n attempt order = sweepSpec base_nonce n attempt := by
  have hperm : (sweepCollect base_nonce attempt order).Perm
      (sweepSpec base_nonce n attempt) :=
    horder.filterMap _
  have hperm2 : (sweep base_nonce n attempt order).Perm
      (sweepSpec base_nonce n attempt) :=
    (List.perm_insertionSort _ _).trans hperm
  have hspec : (sweepSpec base_nonce n attempt).Pairwise (fun a b => a.nonce < b.nonce) :=
    sweepSpec_pairwise base_nonce n attempt
  have hle : (sweep base_nonce n attempt order).Sorted (fun a b => a.nonce ≤ b.nonce) :=
    List.sorted_insertionSort _ _
  have hndspec : ((sweepSpec base_nonce n attempt).map SweepOutcome.nonce).Nodup :=
    List.pairwise_map.mpr (hspec.imp (fun h => Nat.ne_of_lt h))
  have hnd : ((sweep base_nonce n attempt order).map SweepOutcome.nonce).Nodup :=
    ((hperm2.map SweepOutcome.nonce).nodup_iff).mpr hndspec
  have hne : (sweep base_nonce n attempt order).Pairwise
      (fun a b => a.nonce ≠ b.nonce) :=
    List.pairwise_map.mp hnd
  have hlt : (sweep base_nonce n attempt order).Pairwise
      (fun a b => a.nonce < b.nonce) :=
    (hle.and hne).imp (fun h => lt_of_le_of_ne h.1 h.2)
  exact List.eq_of_perm_of_sorted hperm2 hlt hspec

theorem sweepSpec_length_all_some (base_nonce n : Nat)
    (attempt : Nat → Option (Int × List Receipt × List (List Nat)))
    (h : ∀ off, off < n → (attempt off).isSome = true) :
    (sweepSpec base_nonce n attempt).length = n := by
  induction n with
  | zero => rfl
  | succ m ih =>
    have hm := h m (by omega)
    have heq : sweepSpec base_nonce (m + 1) attempt
        = sweepSpec base_nonce m attempt
          ++ List.filterMap (fun off => (attempt off).map
              (fun d => (⟨base_nonce + off, d.1, d.2.1, d.2.2⟩ : SweepOutcome))) [m] := by
      simp only [sweepSpec, List.range_succ, List.filterMap_append]
    rw [heq, List.length_append, ih (fun off hoff => h off (by omega))]
    cases hm2 : attempt m with
    | none =>
      rw [hm2] at hm
      simp at hm
    | some d => simp [hm2]

/-- Claim C7 (confirmed): for every completion order of the per-offset tasks (any
permutation of the offsets), the sweep returns exactly the successful outcomes in
ascending nonce order: failing offsets are skipped without aborting; when all
nonce_range = n offsets succeed the list has length n and is strictly sorted by
nonce regardless of completion order; and a sweep over zero offsets spawns no task
and returns the empty list. -/
theorem c7_sweep_sorted_skip_failures (base_nonce n : Nat)
    (attempt : Nat → Option (Int × List Receipt × List (List Nat))) (order : List Nat)
    (horder : order.Perm (List.range n)) :
    sweep base_nonce n attempt order = sweepSpec base_nonce n attempt ∧
    (sweep base_nonce n attempt order).Pairwise (fun a b => a.nonce < b.nonce) ∧
    ((∀ off, off < n → (attempt off).isSome = true) →
      (sweep base_nonce n attempt order).length = n) ∧
    (n = 0 → sweep base_nonce n attempt order = []) := by
  have heq := sweep_eq_spec base_nonce n attempt order horder
  refine ⟨heq, ?_, ?_, ?_⟩
  · rw [heq]
    exact sweepSpec_pairwise base_nonce n attempt
  · intro h
    rw [heq]
    exact sweepSpec_length_all_some base_nonce n attempt h
  · intro h
    subst h
    rw [heq]
    rfl

theorem c7_witness :
    sweep 100 3 (fun _ => some (0, [], [])) [2, 0, 1]
        = sweepSpec 100 3 (fun _ => some (0, [], [])) ∧
    (sweep 100 3 (fun _ => some (0, [], [])) [2, 0, 1]).length = 3 := by
  have h := c7_sweep_sorted_skip_failures 100 3 (fun _ => some (0, [], [])) [2, 0, 1]
    (by decide)
  exact ⟨h.1, h.2.2.1 (fun off hoff => rfl)⟩

theorem bumpLoop_killGas (newPriceAt : Nat → Nat → Nat) (txs : List TypedTransaction)
    (mg : Nat) (maxLoss : Option Int) (pnl : Option (List Int)) :
    ∀ remaining k0 br0 k br,
      bumpLoop newPriceAt txs (some mg) maxLoss pnl k0 remaining br0
        = (.killSwitchGas k, br) →
      (∀ j ∈ br0, worstCaseCost (newPriceAt j) txs ≤ mg) →
      k0 ≤ k ∧ mg < worstCaseCost (newPriceAt k) txs ∧
      br = br0 ++ List.range' k0 (k - k0) ∧
      (∀ j ∈ br, worstCaseCost (newPriceAt j) txs ≤ mg) := by
  intro remaining
  induction remaining with
  | zero =>
    intro k0 br0 k br h hbr
    simp only [bumpLoop] at h
    injection h with h1 h2
    exact BumpOutcome.noConfusion h1
  | succ n ih =>
    intro k0 br0 k br h hbr
    simp only [bumpLoop] at h
    by_cases hg : gasCheckTriggers (some mg) (worstCaseCost (newPriceAt k0) txs)
    · rw [if_pos hg] at h
      injection h with h1 h2
      injection h1 with h1
      subst h1
      subst h2
      refine ⟨le_refl k0, hg, ?_, hbr⟩
      simp
    · rw [if_neg hg] at h
      by_cases hl : lossCheckTriggers maxLoss pnl (worstCaseCost (newPriceAt k0) txs)
      · rw [if_pos hl] at h
        injection h with h1 h2
        exact BumpOutcome.noConfusion h1
      · rw [if_neg hl] at h
        have hbr1 : ∀ j ∈ br0 ++ [k0], worstCaseCost (newPriceAt j) txs ≤ mg := by
          intro j hj
          rcases List.mem_append.mp hj with hj1 | hj1
          · exact hbr j hj1
          · have : j = k0 := by simpa using hj1
            subst this
            exact Nat.le_of_not_lt hg
        obtain ⟨hk1, hcost, hbreq, hall⟩ := ih (k0 + 1) (br0 ++ [k0]) k br h hbr1
        refine ⟨by omega, hcost, ?_, hall⟩
        have hkk : k - k0 = (k - (k0 + 1)) + 1 := by omega
        rw [hbreq, List.append_assoc, hkk, List.range'_succ]
        rfl

set_option maxRecDepth 8000 in
/-- Claim C5 counterexample: with two EIP-1559 transactions of gas_limit 21000 and
max_fee 10^11, bump_factor 1.25 and kill_switch_max_gas_wei 10^15, already the
first bump attempt has worst-case cost 2 * 21000 * 1.25 * 10^11 = 5.25 * 10^15
above the limit, so the kill switch fires on attempt 1, not on the third attempt. -/
theorem c5_counterexample_first_attempt_exceeds :
    10 ^ 15 < worstCaseCost (scenarioNewPrice 1) scenarioTxs ∧
    bumpPhase scenarioNewPrice scenarioTxs (some (10 ^ 15)) none none 3
      = (.killSwitchGas 1, []) :=
  ⟨by decide, by decide⟩

set_option maxRecDepth 8000 in
/-- Claim C5 corrected: before each bump attempt k the Autosubmitter computes the
worst-case cost over the unsigned transactions with saturating u128 arithmetic and,
when it exceeds kill_switch_max_gas_wei, aborts with the kill-switch gas error: the
killing attempt is the first whose cost exceeds the limit, every earlier attempt
passed the check, and no attempt from the killing one on re-signed or broadcast
anything. Under the literal scenario (two EIP-1559 transactions with gas_limit
21000 and max_fee 10^11, bump_factor 1.25, limit 10^15) the first bump attempt
already exceeds the limit, so the run returns the kill-switch gas error at attempt 1
with no bumped transaction broadcast. -/
theorem c5_kill_switch_first_exceeding_attempt (newPriceAt : Nat → Nat → Nat)
    (txs : List TypedTransaction) (mg : Nat) (maxLoss : Option Int)
    (pnl : Option (List Int)) (max_bumps k : Nat) (br : List Nat)
    (h : bumpPhase newPriceAt txs (some mg) maxLoss pnl max_bumps
      = (.killSwitchGas k, br)) :
    mg < worstCaseCost (newPriceAt k) txs ∧
    br = List.range' 1 (k - 1) ∧
    (∀ j ∈ br, worstCaseCost (newPriceAt j) txs ≤ mg) ∧
    bumpPhase scenarioNewPrice scenarioTxs (some (10 ^ 15)) none none 3
      = (.killSwitchGas 1, []) := by
  obtain ⟨hk, hcost, hbreq, hall⟩ :=
    bumpLoop_killGas newPriceAt txs mg maxLoss pnl max_bumps 1 [] k br h (by simp)
  refine ⟨hcost, by simpa using hbreq, hall, by decide⟩

theorem c5_witness :
    (15 : Nat) < worstCaseCost ((fun k base => base * k) 2)
        [TypedTransaction.legacy ⟨some 0, some 1, some 10⟩] ∧
    ([1] : List Nat) = List.range' 1 (2 - 1) ∧
    worstCaseCost ((fun k base => base * k) 1)
        [TypedTransaction.legacy ⟨some 0, some 1, some 10⟩] ≤ 15 ∧
    bumpPhase scenarioNewPrice scenarioTxs (some (10 ^ 15)) none none 3
      = (.killSwitchGas 1, []) := by
  have h := c5_kill_switch_first_exceeding_attempt (fun k base => base * k)
    [TypedTransaction.legacy ⟨some 0, some 1, some 10⟩] 15 none none 3 2 [1] (by decide)
  exact ⟨h.1, h.2.1, h.2.2.1 1 (by simp), h.2.2.2⟩

theorem pollLoop_timeout_when_no_retries (max_attempts txCount : Nat)
    (htc : 1 ≤ txCount) :
    ∀ fuel attempts rounds, max_attempts ≤ fuel + attempts → 1 ≤ fuel →
      pollLoopNoSigner 0 max_attempts txCount fuel attempts rounds
        = some (.inclusionTimeout, rounds) := by
  intro fuel
  induction fuel with
  | zero =>
    intro attempts rounds hma hf
    omega
  | succ n ih =>
    intro attempts rounds hma hf
    simp only [pollLoopNoSigner]
    rw [if_neg (by omega)]
    by_cases h : max_attempts ≤ attempts + 1
    · rw [if_pos h]
      simp
    · rw [if_neg h]
      exact ih (attempts + 1) rounds (by omega) (by omega)

theorem pollLoop_diverges_of_retries_pos (max_retries max_attempts txCount : Nat)
    (hmr : 1 ≤ max_retries) (htc : 1 ≤ txCount) :
    pollLoopDiverges max_retries max_attempts txCount := by
  intro fuel
  induction fuel with
  | zero =>
    intro attempts rounds
    rfl
  | succ n ih =>
    intro attempts rounds
    simp only [pollLoopNoSigner]
    rw [if_neg (by omega)]
    by_cases h : max_attempts ≤ attempts + 1
    · rw [if_pos h, if_neg (by omega)]
      exact ih 0 (rounds + max_retries)
    · rw [if_neg h]
      exact ih (attempts + 1) rounds

/-- Claim C6 counterexample: with the default max_retries = 3, a 15-attempt polling
window and one never-included transaction, the signer-less path of the Autosubmitter
never returns: every expired window triggers a fresh burst of re-broadcasts and
polling resumes, so no inclusion-timeout error is ever produced. -/
theorem c6_counterexample_never_times_out : pollLoopDiverges 3 15 1 :=
  pollLoop_diverges_of_retries_pos 3 15 1 (by omega) (by omega)

/-- Claim C6 corrected: on the signer-less path with a nonempty bundle and no receipt
ever appearing, the Autosubmitter returns the inclusion-timeout error at the end of
the first polling window only when max_retries = 0; with max_retries ≥ 1 it
re-broadcasts the existing raw transactions max_retries times at each window expiry
and polls forever, never returning. With a signer and unsigned transactions but
max_bumps = 0, the bump loop body never runs and the call fails at once with the
bumps-exhausted error, broadcasting no bumped transaction. -/
theorem c6_rebroadcast_path_termination (max_attempts txCount : Nat)
    (htc : 1 ≤ txCount) :
    (∀ fuel attempts rounds, max_attempts ≤ fuel + attempts → 1 ≤ fuel →
      pollLoopNoSigner 0 max_attempts txCount fuel attempts rounds
        = some (.inclusionTimeout, rounds)) ∧
    (∀ max_retries, 1 ≤ max_retries →
      pollLoopDiverges max_retries max_attempts txCount) ∧
    (∀ newPriceAt txs maxGas maxLoss pnl,
      bumpPhase newPriceAt txs maxGas maxLoss pnl 0 = (.bumpsExhausted, [])) := by
  refine ⟨pollLoop_timeout_when_no_retries max_attempts txCount htc, ?_, ?_⟩
  · exact fun mr hmr => pollLoop_diverges_of_retries_pos mr max_attempts txCount hmr htc
  · intro _ _ _ _ _
    rfl

theorem c6_witness :
    pollLoopNoSigner 0 15 1 15 0 0 = some (.inclusionTimeout, 0) ∧
    bumpPhase (fun _ base => base) [] none none none 0 = (.bumpsExhausted, []) := by
  have h := c6_rebroadcast_path_termination 15 1 (by omega)
  exact ⟨h.1 15 0 0 (by omega) (by omega), h.2.2 (fun _ base => base) [] none none none⟩

theorem c9_witness :
    gasCostScore [⟨some 0, some 2, some 3⟩] = revertSentinel ∧
    gasCostScore [⟨some 1, some 2, some 3⟩] = -(6 : Int) := by
  constructor
  · exact (c9_scorer_revert_and_clamp [⟨some 0, some 2, some 3⟩]).1
      ⟨⟨some 0, some 2, some 3⟩, by simp, rfl⟩
  · have h := (c9_scorer_revert_and_clamp [⟨some 1, some 2, some 3⟩]).2
      (by decide) (by decide) (by norm_num [rcost])
    simpa [rcost] using h

end MevBot
